import Mathlib

/-!
Verification of the device-discovery and state-synchronization engine of the
tasmota_api repository (src/tasmota/discovery.py), as a shallow embedding.

Payloads are raw byte lists; topics are strings. Python library behaviour
(str.split, str.startswith, str.lower, bytes.decode, json.loads, dict
get/set, truthiness) is modelled by the executable functions below. Python
exceptions that can escape the message handler are modelled by an explicit
error component in the handler result; mutations performed before an
exception is raised persist, as they do in Python.
-/

namespace Tasmota

/-- Python str.split(sep) for a single-character separator: splitting the
empty string yields one empty field, and separators at the ends yield empty
fields. -/
def splitOnChar (c : Char) : List Char → List (List Char)
  | [] => [[]]
  | x :: xs =>
    match splitOnChar c xs with
    | [] => [[]]
    | r :: rs => if x = c then [] :: r :: rs else (x :: r) :: rs

/-- Python str.split('/') on a Lean string. -/
def pySplit (sep : Char) (s : String) : List String :=
  (splitOnChar sep s.toList).map (fun cs => String.mk cs)

/-- Python str.startswith(prefix). -/
def pyStartsWith (pre s : String) : Bool :=
  pre.toList.isPrefixOf s.toList

/-- ASCII lower-casing of one character, Python str.lower on ASCII input. -/
def lowerChar (c : Char) : Char :=
  if 'A' ≤ c ∧ c ≤ 'Z' then Char.ofNat (c.toNat + 32) else c

/-- Python str.lower (restricted to the ASCII range exercised by the code). -/
def pyLower (s : String) : String :=
  String.mk (s.toList.map lowerChar)

/-- Lookup in a Python dict modelled as an insertion-ordered association
list with unique keys: dict.get(k) returning None when absent. -/
def alGet {α : Type} (k : String) : List (String × α) → Option α
  | [] => none
  | (k', v) :: rest => if k' = k then some v else alGet k rest

/-- Python dict item assignment d[k] = v: overwrite in place when the key is
present, append otherwise. -/
def alSet {α : Type} (k : String) (v : α) : List (String × α) → List (String × α)
  | [] => [(k, v)]
  | (k', v') :: rest => if k' = k then (k, v) :: rest else (k', v') :: alSet k v rest

/-! ## UTF-8 decoding (Python bytes.decode with the default strict codec) -/

/-- One strict UTF-8 decoding step: the code point and the remaining bytes,
or none on malformed input (continuation ranges, overlongs and surrogates
rejected, as the strict Python codec does). -/
def utf8Step : List Nat → Option (Nat × List Nat)
  | [] => none
  | b :: rest =>
    if b < 0x80 then some (b, rest)
    else if 0xC2 ≤ b ∧ b ≤ 0xDF then
      match rest with
      | c1 :: r =>
        if 0x80 ≤ c1 ∧ c1 ≤ 0xBF then some ((b - 0xC0) * 64 + (c1 - 0x80), r)
        else none
      | _ => none
    else if 0xE0 ≤ b ∧ b ≤ 0xEF then
      match rest with
      | c1 :: c2 :: r =>
        let lo1 := if b = 0xE0 then 0xA0 else 0x80
        let hi1 := if b = 0xED then 0x9F else 0xBF
        if (lo1 ≤ c1 ∧ c1 ≤ hi1) ∧ (0x80 ≤ c2 ∧ c2 ≤ 0xBF) then
          some ((b - 0xE0) * 4096 + (c1 - 0x80) * 64 + (c2 - 0x80), r)
        else none
      | _ => none
    else if 0xF0 ≤ b ∧ b ≤ 0xF4 then
      match rest with
      | c1 :: c2 :: c3 :: r =>
        let lo1 := if b = 0xF0 then 0x90 else 0x80
        let hi1 := if b = 0xF4 then 0x8F else 0xBF
        if (lo1 ≤ c1 ∧ c1 ≤ hi1) ∧ (0x80 ≤ c2 ∧ c2 ≤ 0xBF) ∧ (0x80 ≤ c3 ∧ c3 ≤ 0xBF) then
          some ((b - 0xF0) * 262144 + (c1 - 0x80) * 4096 + (c2 - 0x80) * 64 + (c3 - 0x80), r)
        else none
      | _ => none
    else none

/-- Fueled strict UTF-8 decoding loop. -/
def utf8DecodeAux : Nat → List Nat → Option (List Char)
  | _, [] => some []
  | 0, _ :: _ => none
  | fuel + 1, bs =>
    match utf8Step bs with
    | none => none
    | some (cp, rest) =>
      match utf8DecodeAux fuel rest with
      | none => none
      | some cs => some (Char.ofNat cp :: cs)

/-- Python bytes.decode(): some string on valid UTF-8, none models the
escaping UnicodeDecodeError. -/
def utf8Decode (bs : List Nat) : Option String :=
  match utf8DecodeAux bs.length bs with
  | none => none
  | some cs => some (String.mk cs)

/-- UTF-8 encoding of one code point. -/
def utf8EncodeChar (c : Char) : List Nat :=
  let n := c.toNat
  if n < 0x80 then [n]
  else if n < 0x800 then [0xC0 + n / 64, 0x80 + n % 64]
  else if n < 0x10000 then [0xE0 + n / 4096, 0x80 + (n / 64) % 64, 0x80 + n % 64]
  else [0xF0 + n / 262144, 0x80 + (n / 4096) % 64, 0x80 + (n / 64) % 64, 0x80 + n % 64]

/-- UTF-8 encoding of a string, used to build concrete byte payloads. -/
def strBytes (s : String) : List Nat :=
  s.toList.flatMap utf8EncodeChar

/-- Pair bytes into UTF-16 code units with the given endianness; a trailing
odd byte is malformed. -/
def utf16Units (le : Bool) : List Nat → Option (List Nat)
  | [] => some []
  | [_] => none
  | b0 :: b1 :: rest =>
    match utf16Units le rest with
    | none => none
    | some us => some ((if le then b0 + 256 * b1 else 256 * b0 + b1) :: us)

/-- Combine UTF-16 code units into characters, pairing surrogates; a lone
surrogate is malformed, as in the strict Python codecs. -/
def utf16Combine : List Nat → Option (List Char)
  | [] => some []
  | u :: rest =>
    if 0xD800 ≤ u ∧ u ≤ 0xDBFF then
      match rest with
      | u2 :: rest2 =>
        if 0xDC00 ≤ u2 ∧ u2 ≤ 0xDFFF then
          match utf16Combine rest2 with
          | none => none
          | some cs => some (Char.ofNat (0x10000 + (u - 0xD800) * 1024 + (u2 - 0xDC00)) :: cs)
        else none
      | [] => none
    else if 0xDC00 ≤ u ∧ u ≤ 0xDFFF then none
    else
      match utf16Combine rest with
      | none => none
      | some cs => some (Char.ofNat u :: cs)

/-- Strict UTF-16 decoding with the given endianness. -/
def utf16Decode (le : Bool) (bs : List Nat) : Option String :=
  match utf16Units le bs with
  | none => none
  | some us =>
    match utf16Combine us with
    | none => none
    | some cs => some (String.mk cs)

/-- Strict UTF-32 decoding with the given endianness: four-byte units that
must form valid scalar values. -/
def utf32Chars (le : Bool) : List Nat → Option (List Char)
  | [] => some []
  | b0 :: b1 :: b2 :: b3 :: rest =>
    let cp := if le then b0 + 256 * b1 + 65536 * b2 + 16777216 * b3
              else 16777216 * b0 + 65536 * b1 + 256 * b2 + b3
    if cp ≤ 0x10FFFF ∧ ¬ (0xD800 ≤ cp ∧ cp ≤ 0xDFFF) then
      match utf32Chars le rest with
      | none => none
      | some cs => some (Char.ofNat cp :: cs)
    else none
  | _ => none

/-- Strict UTF-32 decoding to a string. -/
def utf32Decode (le : Bool) (bs : List Nat) : Option String :=
  match utf32Chars le bs with
  | none => none
  | some cs => some (String.mk cs)

/-- The byte decoding json.loads performs on a bytes payload: the
detect_encoding probe of the json module — UTF-32 then UTF-16 then UTF-8
byte-order marks (stripped), then null-byte patterns over the first bytes
selecting an explicit-endian UTF-16/32 codec, defaulting to UTF-8 — followed
by the strict decode. -/
def jsonBytesDecode (bs : List Nat) : Option String :=
  match bs with
  | 0x00 :: 0x00 :: 0xFE :: 0xFF :: rest => utf32Decode false rest
  | 0xFF :: 0xFE :: 0x00 :: 0x00 :: rest => utf32Decode true rest
  | 0xFE :: 0xFF :: rest => utf16Decode false rest
  | 0xFF :: 0xFE :: rest => utf16Decode true rest
  | 0xEF :: 0xBB :: 0xBF :: rest => utf8Decode rest
  | b0 :: b1 :: b2 :: b3 :: rest =>
    if b0 = 0 then
      if b1 ≠ 0 then utf16Decode false (b0 :: b1 :: b2 :: b3 :: rest)
      else utf32Decode false (b0 :: b1 :: b2 :: b3 :: rest)
    else if b1 = 0 then
      if b2 ≠ 0 ∨ b3 ≠ 0 then utf16Decode true (b0 :: b1 :: b2 :: b3 :: rest)
      else utf32Decode true (b0 :: b1 :: b2 :: b3 :: rest)
    else utf8Decode (b0 :: b1 :: b2 :: b3 :: rest)
  | [b0, b1] =>
    if b0 = 0 then utf16Decode false [b0, b1]
    else if b1 = 0 then utf16Decode true [b0, b1]
    else utf8Decode [b0, b1]
  | _ => utf8Decode bs

/-! ## JSON values and parsing (Python json.loads)

Integer literals decode to num; number literals with a fraction or exponent
part decode to float, modelled by the exact decimal value m * 10^e (the
rounding of that decimal to a binary double is not modelled: no claim
depends on a float value, only on parse success and on the shape of the
result). The NaN, Infinity and -Infinity literals accepted by json.loads
are modelled by dedicated constructors. Objects model Python dicts as
insertion-ordered association lists with unique keys; a duplicated key in
the input overwrites the earlier one, as json.loads does. -/

inductive Json where
  | null : Json
  | bool (b : Bool) : Json
  | num (n : Int) : Json
  | float (m : Int) (e : Int) : Json
  | nan : Json
  | inf (neg : Bool) : Json
  | str (s : String) : Json
  | arr (elems : List Json) : Json
  | obj (fields : List (String × Json)) : Json

/-- JSON whitespace. -/
def isJsonWs (c : Char) : Bool :=
  c = ' ' ∨ c = '\t' ∨ c = '\n' ∨ c = '\r'

/-- Drop leading JSON whitespace. -/
def skipWs : List Char → List Char
  | [] => []
  | c :: cs => if isJsonWs c then skipWs cs else c :: cs

/-- Hexadecimal digit value. -/
def hexVal (c : Char) : Option Nat :=
  if '0' ≤ c ∧ c ≤ '9' then some (c.toNat - '0'.toNat)
  else if 'a' ≤ c ∧ c ≤ 'f' then some (c.toNat - 'a'.toNat + 10)
  else if 'A' ≤ c ∧ c ≤ 'F' then some (c.toNat - 'A'.toNat + 10)
  else none

/-- Parse the body of a JSON string after the opening quote, returning the
decoded characters and the input after the closing quote. Raw control
characters are rejected, escapes are decoded. -/
def parseJString : List Char → Option (List Char × List Char)
  | [] => none
  | c :: cs =>
    if c = '"' then some ([], cs)
    else if c = '\\' then
      match cs with
      | [] => none
      | e :: cs' =>
        let simple : Option Char :=
          if e = '"' then some '"'
          else if e = '\\' then some '\\'
          else if e = '/' then some '/'
          else if e = 'b' then some (Char.ofNat 8)
          else if e = 'f' then some (Char.ofNat 12)
          else if e = 'n' then some '\n'
          else if e = 'r' then some '\r'
          else if e = 't' then some '\t'
          else none
        match simple with
        | some d =>
          match parseJString cs' with
          | some (ds, rest) => some (d :: ds, rest)
          | none => none
        | none =>
          if e = 'u' then
            match cs' with
            | h1 :: h2 :: h3 :: h4 :: cs2 =>
              match hexVal h1, hexVal h2, hexVal h3, hexVal h4 with
              | some a, some b, some c3, some d =>
                match parseJString cs2 with
                | some (ds, rest) =>
                  some (Char.ofNat (a * 4096 + b * 256 + c3 * 16 + d) :: ds, rest)
                | none => none
              | _, _, _, _ => none
            | _ => none
          else none
    else if c.toNat < 0x20 then none
    else
      match parseJString cs with
      | some (ds, rest) => some (c :: ds, rest)
      | none => none

/-- Take leading decimal digits. -/
def takeDigits : List Char → List Char × List Char
  | [] => ([], [])
  | c :: cs =>
    if '0' ≤ c ∧ c ≤ '9' then
      let (ds, rest) := takeDigits cs
      (c :: ds, rest)
    else ([], c :: cs)

/-- Decimal value of a digit list. -/
def digitsVal : List Char → Nat → Nat
  | [], acc => acc
  | c :: cs, acc => digitsVal cs (acc * 10 + (c.toNat - '0'.toNat))

/-- Parse an exponent tail after the e or E marker: an optional sign then
at least one digit; none when the digits are missing, in which case the
number ends before the marker, as the json.loads number regex backtracks. -/
def parseExpTail : List Char → Option (Bool × List Char × List Char)
  | cs =>
    let (eneg, cs1) :=
      match cs with
      | '+' :: r => (false, r)
      | '-' :: r => (true, r)
      | _ => (false, cs)
    match takeDigits cs1 with
    | ([], _) => none
    | (d :: ds, rest) => some (eneg, d :: ds, rest)

/-- Parse a JSON number with the json.loads grammar: an optional minus, an
integer part without leading zeros, then an optional fraction and an
optional exponent. Without fraction and exponent the result is an integer,
otherwise a float carrying the exact decimal value. -/
def parseJNum : List Char → Option (Json × List Char)
  | cs =>
    let (neg, cs1) :=
      match cs with
      | '-' :: rest => (true, rest)
      | _ => (false, cs)
    match takeDigits cs1 with
    | ([], _) => none
    | (d :: ds, rest0) =>
      if d = '0' ∧ ds ≠ [] then none
      else
        let (fracDigits, rest1) :=
          match rest0 with
          | '.' :: r =>
            match takeDigits r with
            | ([], _) => (([] : List Char), rest0)
            | (f :: fs, r2) => (f :: fs, r2)
          | _ => ([], rest0)
        let expRes :=
          match rest1 with
          | 'e' :: r => parseExpTail r
          | 'E' :: r => parseExpTail r
          | _ => none
        match fracDigits, expRes with
        | [], none =>
          let v : Int := Int.ofNat (digitsVal (d :: ds) 0)
          some (.num (if neg then -v else v), rest1)
        | _, _ =>
          let m0 : Int := Int.ofNat (digitsVal (d :: ds ++ fracDigits) 0)
          let mi : Int := if neg then -m0 else m0
          let eBase : Int := -(fracDigits.length : Int)
          match expRes with
          | none => some (.float mi eBase, rest1)
          | some (eneg, eds, rest2) =>
            let ev : Int := Int.ofNat (digitsVal eds 0)
            some (.float mi (eBase + if eneg then -ev else ev), rest2)

mutual

/-- Fueled JSON value parser: returns the value and the unconsumed input. -/
def parseVal : Nat → List Char → Option (Json × List Char)
  | 0, _ => none
  | fuel + 1, cs =>
    match skipWs cs with
    | [] => none
    | c :: cs' =>
      if c = '"' then
        match parseJString cs' with
        | some (ds, rest) => some (.str (String.mk ds), rest)
        | none => none
      else if c = '{' then parseObjBody fuel (skipWs cs') []
      else if c = '[' then parseArrBody fuel (skipWs cs')
      else if c = 't' then
        match cs' with
        | 'r' :: 'u' :: 'e' :: rest => some (.bool true, rest)
        | _ => none
      else if c = 'f' then
        match cs' with
        | 'a' :: 'l' :: 's' :: 'e' :: rest => some (.bool false, rest)
        | _ => none
      else if c = 'n' then
        match cs' with
        | 'u' :: 'l' :: 'l' :: rest => some (.null, rest)
        | _ => none
      else if c = 'N' then
        match cs' with
        | 'a' :: 'N' :: rest => some (.nan, rest)
        | _ => none
      else if c = 'I' then
        match cs' with
        | 'n' :: 'f' :: 'i' :: 'n' :: 'i' :: 't' :: 'y' :: rest => some (.inf false, rest)
        | _ => none
      else if c = '-' then
        match cs' with
        | 'I' :: 'n' :: 'f' :: 'i' :: 'n' :: 'i' :: 't' :: 'y' :: rest => some (.inf true, rest)
        | _ => parseJNum (c :: cs')
      else parseJNum (c :: cs')

/-- Parse the inside of a JSON object after the opening brace (and leading
whitespace); acc holds the fields read so far, later duplicates
overwriting. -/
def parseObjBody : Nat → List Char → List (String × Json) → Option (Json × List Char)
  | 0, _, _ => none
  | _ + 1, [], _ => none
  | fuel + 1, c :: cs, acc =>
    if c = '}' ∧ acc.isEmpty then some (.obj [], cs)
    else if c = '"' then
      match parseJString cs with
      | none => none
      | some (ds, rest1) =>
        match skipWs rest1 with
        | ':' :: rest2 =>
          match parseVal fuel rest2 with
          | none => none
          | some (v, rest3) =>
            let acc' := alSet (String.mk ds) v acc
            match skipWs rest3 with
            | ',' :: rest4 => parseObjBody fuel (skipWs rest4) acc'
            | '}' :: rest4 => some (.obj acc', rest4)
            | _ => none
        | _ => none
    else none

/-- Parse the inside of a JSON array after the opening bracket (and leading
whitespace). -/
def parseArrBody : Nat → List Char → Option (Json × List Char)
  | 0, _ => none
  | _ + 1, [] => none
  | fuel + 1, c :: cs =>
    if c = ']' then some (.arr [], cs)
    else
      match parseArrElems fuel (c :: cs) with
      | some (vs, rest) => some (.arr vs, rest)
      | none => none

/-- Parse one or more comma-separated JSON array elements up to the closing
bracket. -/
def parseArrElems : Nat → List Char → Option (List Json × List Char)
  | 0, _ => none
  | fuel + 1, cs =>
    match parseVal fuel cs with
    | none => none
    | some (v, rest) =>
      match skipWs rest with
      | ',' :: rest2 =>
        match parseArrElems fuel rest2 with
        | some (vs, rest3) => some (v :: vs, rest3)
        | none => none
      | ']' :: rest2 => some ([v], rest2)
      | _ => none
end

/-- Python json.loads on a string: the whole input must be consumed. -/
def jsonParse (s : String) : Option Json :=
  let cs := s.toList
  match parseVal (2 * cs.length + 2) cs with
  | some (v, rest) => if skipWs rest = [] then some v else none
  | none => none

/-- Python json.loads on a bytes payload: encoding detection and decode,
then parse; any failure raises inside json.loads and is caught by the
callers in discovery.py. -/
def jsonLoadsBytes (bs : List Nat) : Option Json :=
  match jsonBytesDecode bs with
  | none => none
  | some s => jsonParse s

/-! ## Python value semantics -/

/-- Digit character for a value below ten. -/
def digitChar (n : Nat) : Char := Char.ofNat ('0'.toNat + n)

/-- Decimal rendering of a natural number (fueled). -/
def natToStrAux : Nat → Nat → List Char
  | 0, _ => []
  | fuel + 1, n => if n < 10 then [digitChar n] else natToStrAux fuel (n / 10) ++ [digitChar (n % 10)]

/-- Decimal rendering of a natural number. -/
def natToStr (n : Nat) : String := String.mk (natToStrAux (n + 1) n)

/-- Decimal rendering of an integer. -/
def intToStr : Int → String
  | .ofNat n => natToStr n
  | .negSucc n => "-" ++ natToStr (n + 1)

/-- Python truthiness of a JSON-decoded value: None, False, 0, 0.0, empty
string, empty list and empty dict are falsy; NaN and the infinities are
truthy. (Underflow of a tiny nonzero decimal to the binary 0.0 is not
modelled; no claim evaluates float truthiness.) -/
def pyTruthy : Json → Bool
  | .null => false
  | .bool b => b
  | .num n => n ≠ 0
  | .float m _ => m ≠ 0
  | .nan => true
  | .inf _ => true
  | .str s => ¬ s.isEmpty
  | .arr xs => ¬ xs.isEmpty
  | .obj kvs => ¬ kvs.isEmpty

/-- Join strings with a comma separator. -/
def joinComma : List String → String
  | [] => ""
  | [s] => s
  | s :: rest => s ++ ", " ++ joinComma rest

/-- The single-quote character, used by Python repr of strings. -/
def squote : String := String.mk [Char.ofNat 39]

/-- Decimal rendering of the float value m * 10^e with an explicit decimal
point, approximating Python str of a float (Python switches to shortest
round-trip and exponent notation for extreme magnitudes; claims never
render floats). -/
def floatRepr (m : Int) (e : Int) : String :=
  let sign := if m < 0 then "-" else ""
  let digits := natToStr m.natAbs
  if 0 ≤ e then
    sign ++ digits ++ String.mk (List.replicate e.toNat '0') ++ ".0"
  else
    let k := (-e).toNat
    let ds := digits.toList
    if k < ds.length then
      sign ++ String.mk (ds.take (ds.length - k)) ++ "." ++ String.mk (ds.drop (ds.length - k))
    else
      sign ++ "0." ++ String.mk (List.replicate (k - ds.length) '0') ++ digits

/-- Python repr of a JSON-decoded value (fueled on depth; claims never
exercise container rendering, escaping inside repr of strings is omitted). -/
def pyReprAux : Nat → Json → String
  | _, .null => "None"
  | _, .bool true => "True"
  | _, .bool false => "False"
  | _, .num n => intToStr n
  | _, .float m e => floatRepr m e
  | _, .nan => "nan"
  | _, .inf false => "inf"
  | _, .inf true => "-inf"
  | _, .str s => squote ++ s ++ squote
  | 0, _ => ""
  | fuel + 1, .arr xs => "[" ++ joinComma (xs.map (pyReprAux fuel)) ++ "]"
  | fuel + 1, .obj kvs =>
    "\x7b" ++ joinComma (kvs.map (fun p => squote ++ p.1 ++ squote ++ ": " ++ pyReprAux fuel p.2)) ++ "\x7d"

/-- Python str() of a JSON-decoded value, as interpolated by an f-string:
strings render without quotes, containers via repr. -/
def pyStr : Json → String
  | .str s => s
  | j => pyReprAux 1000 j

/-- Python str() of an optional value, None rendering as the literal text
None inside an f-string. -/
def pyStrOpt : Option Json → String
  | none => "None"
  | some j => pyStr j

/-- Python equality between a str and a JSON-decoded value: only another
equal str compares equal. -/
def pyEqStrJson (m : String) (j : Json) : Bool :=
  match j with
  | .str s => m = s
  | _ => false

/-- Python dict.get(k) on a JSON-decoded value. Python raises
AttributeError when the receiver is not a dict; the device-property
theorems below therefore assume an object-valued config. -/
def pyDictGet (j : Json) (k : String) : Option Json :=
  match j with
  | .obj kvs => alGet k kvs
  | _ => none

/-! ## Device (class Device in discovery.py)

A Device holds its serial number, its config and sensors snapshots and an
optional change callback. Callbacks are modelled by numeric identifiers and
their invocations by an explicit event trace; the shared telemetry store the
Python object keeps a reference to is passed explicitly where read. -/

structure DState where
  sn : String
  config : Json
  sensors : Json
  on_change : Option Nat

/-- Device.__init__: empty config and sensors, no change callback. -/
def initDevice (sn : String) : DState :=
  ⟨sn, .obj [], .obj [], none⟩

/-- Callback-invocation events: a new-device callback, a device change
callback (receiving the already-updated device, as in Python), or the
chained original on_message handler. -/
inductive Event where
  | newDevice (cb : Nat) (d : DState)
  | change (cb : Nat) (d : DState)
  | forward (cb : Nat) (topic : String) (payload : List Nat)

/-- The config property setter: store the value, then invoke the change
callback (with the mutated device) when one is registered — even when the
new value equals the old one. -/
def setConfig (d : DState) (v : Json) : DState × List Event :=
  let d' := { d with config := v }
  match d.on_change with
  | some cb => (d', [.change cb d'])
  | none => (d', [])

/-- The sensors property setter, same contract as the config setter. -/
def setSensors (d : DState) (v : Json) : DState × List Event :=
  let d' := { d with sensors := v }
  match d.on_change with
  | some cb => (d', [.change cb d'])
  | none => (d', [])

/-- Device.ip_address: the ip entry of the config, absent when unset. -/
def DState.ip_address (d : DState) : Option Json := pyDictGet d.config "ip"

/-- Device.topic: config.get('t'). -/
def DState.topic (d : DState) : Option Json := pyDictGet d.config "t"

/-- Device.online_message: the onln entry of the config when truthy, the
literal string Online otherwise. Never None. -/
def DState.online_message (d : DState) : Json :=
  match pyDictGet d.config "onln" with
  | some v => if pyTruthy v then v else .str "Online"
  | none => .str "Online"

/-- The telemetry topic the online property reads, built by an f-string around
the topic property; an unset t interpolates as the text None. -/
def DState.lwtTopic (d : DState) : String :=
  "tele/" ++ pyStrOpt d.topic ++ "/LWT"

/-- Device.online: look the LWT topic up in the shared telemetry store;
None (unknown) when the topic has not been seen, otherwise equality of the
stored payload with online_message. The source also returns None when
online_message is None, a dead branch since online_message defaults to the
string Online. -/
def DState.online (d : DState) (telemetry : List (String × String)) : Option Bool :=
  match alGet d.lwtTopic telemetry with
  | none => none
  | some m => some (pyEqStrJson m d.online_message)

/-! ## Discovery engine (class Discover in discovery.py) -/

/-- An inbound MQTT message: a topic string and a raw byte payload. -/
structure Msg where
  topic : String
  payload : List Nat

/-- Engine state: the device registry and telemetry store (insertion-ordered
dicts), the registered new-device callbacks, and the captured pre-existing
on_message handler of the transport. -/
structure Discover where
  devices : List (String × DState)
  telemetry : List (String × String)
  newDeviceCallbacks : List Nat
  otherOnMessage : Option Nat

/-- The on_new_device property setter: append the callback unless it is
already registered. -/
def onNewDeviceAdd (st : Discover) (f : Nat) : Discover :=
  if f ∈ st.newDeviceCallbacks then st
  else { st with newDeviceCallbacks := st.newDeviceCallbacks ++ [f] }

/-- Exceptions that can escape the message handler: bytes.decode on invalid
UTF-8, and .get on a JSON-decoded non-dict. -/
inductive PyError where
  | unicodeDecodeError
  | attributeError
  deriving DecidableEq

/-- Outcome of one handler call: the engine state after it (mutations made
before an exception persist, as in Python), the callback invocations it
performed in order, and the escaping exception if any. -/
structure Result where
  st : Discover
  events : List Event
  err : Option PyError

/-- The devices.get(sn) / create-if-missing block of _discovery_msg: the
device (fresh or existing), the updated state, and the new-device callback
invocations. In the source the fresh device is inserted into the registry
before the callback loop runs. -/
def lookupOrCreate (st : Discover) (sn : String) : DState × Discover × List Event :=
  match alGet sn st.devices with
  | some d => (d, st, [])
  | none =>
    let d := initDevice sn
    (d, { st with devices := alSet sn d st.devices },
     st.newDeviceCallbacks.map (fun cb => Event.newDevice cb d))

/-- Discover._discovery_msg: split the topic into exactly four segments
(anything else is dropped), look up or create the device, then dispatch on
the lower-cased message type. A config payload that decodes as JSON
replaces the device config wholesale; a sensors payload that decodes as
JSON has its sn key (defaulting to an empty dict) stored as the sensors
snapshot — but .get on a decoded non-dict raises AttributeError, after the
device was already created. Undecodable payloads are dropped. -/
def discoveryMsg (st : Discover) (m : Msg) : Result :=
  match pySplit '/' m.topic with
  | [_, _, sn, msgType] =>
    match lookupOrCreate st sn with
    | (device, st1, evs1) =>
      if pyLower msgType = "config" then
        match jsonLoadsBytes m.payload with
        | none => ⟨st1, evs1, none⟩
        | some config =>
          match setConfig device config with
          | (d', evs2) => ⟨{ st1 with devices := alSet sn d' st1.devices }, evs1 ++ evs2, none⟩
      else if pyLower msgType = "sensors" then
        match jsonLoadsBytes m.payload with
        | none => ⟨st1, evs1, none⟩
        | some sensors =>
          match sensors with
          | .obj fields =>
            match setSensors device ((alGet "sn" fields).getD (.obj [])) with
            | (d', evs2) => ⟨{ st1 with devices := alSet sn d' st1.devices }, evs1 ++ evs2, none⟩
          | _ => ⟨st1, evs1, some .attributeError⟩
      else ⟨st1, evs1, none⟩
  | _ => ⟨st, [], none⟩

/-- Discover._telemetry_msg: msg.payload.decode() stored under the topic;
the decode is not guarded, so invalid UTF-8 raises UnicodeDecodeError. -/
def telemetryMsg (st : Discover) (m : Msg) : Discover × Option PyError :=
  match utf8Decode m.payload with
  | none => (st, some .unicodeDecodeError)
  | some s => ({ st with telemetry := alSet m.topic s st.telemetry }, none)

/-- The routing block of Discover._on_message: discovery prefix first, then
telemetry prefix, else no engine action. -/
def routeMsg (st : Discover) (m : Msg) : Result :=
  if pyStartsWith "tasmota/discovery/" m.topic then discoveryMsg st m
  else if pyStartsWith "tele/" m.topic then
    match telemetryMsg st m with
    | (st', e) => ⟨st', [], e⟩
  else ⟨st, [], none⟩

/-- Discover._on_message: route by topic prefix, then forward the message to
the captured original handler — unless an exception escaped the routed
handler first. -/
def onMessage (st : Discover) (m : Msg) : Result :=
  let r : Result := routeMsg st m
  match r.err with
  | some _ => r
  | none =>
    match st.otherOnMessage with
    | some cb => { r with events := r.events ++ [.forward cb m.topic m.payload] }
    | none => r

/-- Deliver a list of messages in order, threading the state and
concatenating the callback traces; an exception escaping one delivery does
not undo its mutations nor stop later deliveries. -/
def runMsgs (st : Discover) : List Msg → Discover × List Event
  | [] => (st, [])
  | m :: rest =>
    ((runMsgs (onMessage st m).st rest).1,
     (onMessage st m).events ++ (runMsgs (onMessage st m).st rest).2)

/-- The serial-number segment of a four-segment topic. -/
def serialOf (m : Msg) : Option String :=
  match pySplit '/' m.topic with
  | [_, _, sn, _] => some sn
  | _ => none

/-- A structurally valid discovery message: discovery prefix and exactly
four slash-separated topic segments. -/
def validDiscoveryMsg (m : Msg) : Bool :=
  pyStartsWith "tasmota/discovery/" m.topic ∧ (pySplit '/' m.topic).length = 4

/-- Recognizer for new-device events carrying a given serial number. -/
def isNewDeviceFor (sn : String) : Event → Bool
  | .newDevice _ d => d.sn = sn
  | _ => false

/-- Recognizer for chained-handler forwarding events. -/
def isForward : Event → Bool
  | .forward _ _ _ => true
  | _ => false

/-- Recognizer for device change-callback events. -/
def isChange : Event → Bool
  | .change _ _ => true
  | _ => false

/-- Recognizer for new-device events with any serial number. -/
def isNewDevice : Event → Bool
  | .newDevice _ _ => true
  | _ => false

/-- Registry well-formedness: every device reachable through the registry
is stored under its own serial number. -/
def WFdevices (st : Discover) : Prop :=
  ∀ sn d, alGet sn st.devices = some d → d.sn = sn

/-! ## Association-list lemmas -/

theorem alGet_alSet {α : Type} (k k' : String) (v : α) (l : List (String × α)) :
    alGet k' (alSet k v l) = if k = k' then some v else alGet k' l := by
  induction l with
  | nil => by_cases h : k = k' <;> simp [alSet, alGet, h]
  | cons p rest ih =>
    obtain ⟨k0, v0⟩ := p
    by_cases h0 : k0 = k
    · subst h0
      simp only [alSet, if_pos rfl, alGet]
      split_ifs <;> rfl
    · by_cases h1 : k0 = k'
      · have hkk : ¬ k = k' := fun hh => h0 (h1.trans hh.symm)
        have hkk' : ¬ k' = k := fun hh => hkk hh.symm
        simp [alSet, alGet, h0, h1, hkk, hkk']
      · simp [alSet, alGet, h0, h1, ih]

theorem alGet_mem {α : Type} {k : String} {v : α} {l : List (String × α)}
    (h : alGet k l = some v) : (k, v) ∈ l := by
  induction l with
  | nil => simp [alGet] at h
  | cons p rest ih =>
    obtain ⟨k0, v0⟩ := p
    by_cases h0 : k0 = k
    · subst h0
      simp [alGet] at h
      simp [h]
    · simp [alGet, h0] at h
      exact List.mem_cons_of_mem _ (ih h)

theorem alGet_isSome_iff_mem {α : Type} (k : String) (l : List (String × α)) :
    (alGet k l).isSome ↔ k ∈ l.map Prod.fst := by
  induction l with
  | nil => simp [alGet]
  | cons p rest ih =>
    obtain ⟨k0, v0⟩ := p
    by_cases h0 : k0 = k
    · subst h0
      simp [alGet]
    · simp [alGet, h0, ih]
      intro h
      exact absurd h.symm h0

theorem alSet_keys_of_absent {α : Type} (k : String) (v : α) (l : List (String × α))
    (h : alGet k l = none) : alSet k v l = l ++ [(k, v)] := by
  induction l with
  | nil => simp [alSet]
  | cons p rest ih =>
    obtain ⟨k0, v0⟩ := p
    by_cases h0 : k0 = k
    · subst h0
      simp [alGet] at h
    · simp [alGet, h0] at h
      simp [alSet, h0, ih h]

theorem alSet_map_fst {α : Type} (k : String) (v : α) (l : List (String × α)) :
    (alSet k v l).map Prod.fst =
      if (alGet k l).isSome then l.map Prod.fst else l.map Prod.fst ++ [k] := by
  induction l with
  | nil => simp [alSet, alGet]
  | cons p rest ih =>
    obtain ⟨k0, v0⟩ := p
    by_cases h0 : k0 = k
    · subst h0
      simp [alSet, alGet]
    · simp [alSet, alGet, h0, ih]
      split <;> simp

theorem mem_alSet {α : Type} (p : String × α) (k : String) (v : α) (l : List (String × α))
    (h : p ∈ alSet k v l) : p = (k, v) ∨ p ∈ l := by
  induction l with
  | nil => simp [alSet] at h; simp [h]
  | cons q rest ih =>
    obtain ⟨k0, v0⟩ := q
    by_cases h0 : k0 = k
    · subst h0
      simp [alSet] at h
      rcases h with h | h
      · exact Or.inl h
      · exact Or.inr (List.mem_cons_of_mem _ h)
    · simp [alSet, h0] at h
      rcases h with h | h
      · exact Or.inr (by simp [h])
      · rcases ih h with h' | h'
        · exact Or.inl h'
        · exact Or.inr (List.mem_cons_of_mem _ h')

/-! ## Structure of the on_message wrapper -/

theorem onMessage_st (st : Discover) (m : Msg) :
    (onMessage st m).st = (routeMsg st m).st := by
  unfold onMessage
  cases herr : (routeMsg st m).err <;> cases hcb : st.otherOnMessage <;> simp [herr, hcb]

theorem onMessage_err (st : Discover) (m : Msg) :
    (onMessage st m).err = (routeMsg st m).err := by
  unfold onMessage
  cases herr : (routeMsg st m).err <;> cases hcb : st.otherOnMessage <;> simp [herr, hcb]

theorem onMessage_events (st : Discover) (m : Msg) :
    (onMessage st m).events =
      (routeMsg st m).events ++
        (match (routeMsg st m).err, st.otherOnMessage with
         | none, some cb => [Event.forward cb m.topic m.payload]
         | _, _ => []) := by
  unfold onMessage
  cases herr : (routeMsg st m).err <;> cases hcb : st.otherOnMessage <;> simp [herr, hcb]

theorem routeMsg_discovery (st : Discover) (m : Msg)
    (h : pyStartsWith "tasmota/discovery/" m.topic = true) :
    routeMsg st m = discoveryMsg st m := by
  simp [routeMsg, h]

theorem routeMsg_tele (st : Discover) (m : Msg)
    (h1 : pyStartsWith "tasmota/discovery/" m.topic = false)
    (h2 : pyStartsWith "tele/" m.topic = true) :
    routeMsg st m = ⟨(telemetryMsg st m).1, [], (telemetryMsg st m).2⟩ := by
  simp [routeMsg, h1, h2]

theorem routeMsg_other (st : Discover) (m : Msg)
    (h1 : pyStartsWith "tasmota/discovery/" m.topic = false)
    (h2 : pyStartsWith "tele/" m.topic = false) :
    routeMsg st m = ⟨st, [], none⟩ := by
  simp [routeMsg, h1, h2]

theorem list_len4 {α : Type} (l : List α) (h : l.length = 4) :
    ∃ a b c d, l = [a, b, c, d] := by
  rcases l with _ | ⟨a, _ | ⟨b, _ | ⟨c, _ | ⟨d, _ | ⟨e, rest⟩⟩⟩⟩⟩
  · simp at h
  · simp at h
  · simp at h
  · simp at h
  · exact ⟨a, b, c, d, rfl⟩
  · simp only [List.length_cons, List.length_nil] at h
    omega

theorem serialOf_some {m : Msg} {s : String} (h : serialOf m = some s) :
    ∃ a b ty, pySplit '/' m.topic = [a, b, s, ty] := by
  unfold serialOf at h
  split at h
  · next a b sn ty heq =>
    refine ⟨a, b, ty, ?_⟩
    rw [heq]
    injection h with h'
    rw [h']
  · cases h

theorem validDiscoveryMsg_parts {m : Msg} (h : validDiscoveryMsg m = true) :
    pyStartsWith "tasmota/discovery/" m.topic = true ∧ ∃ s, serialOf m = some s := by
  unfold validDiscoveryMsg at h
  simp only [Bool.decide_and, Bool.and_eq_true, decide_eq_true_eq] at h
  obtain ⟨h1, h2⟩ := h
  refine ⟨h1, ?_⟩
  obtain ⟨a, b, c, d, hl⟩ := list_len4 _ h2
  exact ⟨c, by unfold serialOf; rw [hl]⟩

theorem discoveryMsg_st_fields (st : Discover) (m : Msg) :
    (discoveryMsg st m).st.newDeviceCallbacks = st.newDeviceCallbacks ∧
    (discoveryMsg st m).st.otherOnMessage = st.otherOnMessage ∧
    (discoveryMsg st m).st.telemetry = st.telemetry := by
  unfold discoveryMsg lookupOrCreate setConfig setSensors
  split
  · cases hd : alGet _ st.devices <;>
      simp only [hd] <;>
      split_ifs <;>
      (try split) <;>
      (try split) <;>
      simp
  · simp

theorem discoveryMsg_no_forward (st : Discover) (m : Msg) :
    (discoveryMsg st m).events.filter isForward = [] := by
  unfold discoveryMsg lookupOrCreate setConfig setSensors
  split
  · cases hd : alGet _ st.devices <;>
      simp only [hd] <;>
      split_ifs <;>
      (try split) <;>
      (try split) <;>
      simp [isForward, List.filter_append, List.filter_map] <;>
      (try split) <;>
      simp [isForward]
  · simp

theorem filter_newDeviceFor_map (cbs : List Nat) (s sn : String) :
    (cbs.map (fun cb => Event.newDevice cb (initDevice s))).filter (isNewDeviceFor sn) =
      if s = sn then cbs.map (fun cb => Event.newDevice cb (initDevice sn)) else [] := by
  induction cbs with
  | nil => split <;> rfl
  | cons c rest ih =>
    by_cases h : s = sn
    · subst h
      simp [isNewDeviceFor, initDevice, ih]
    · simp [isNewDeviceFor, initDevice, h, ih]

theorem discoveryMsg_newDevice_filter (st : Discover) (m : Msg) (a b s ty : String)
    (hsplit : pySplit '/' m.topic = [a, b, s, ty]) (sn : String) :
    (discoveryMsg st m).events.filter (isNewDeviceFor sn) =
      if s = sn ∧ (alGet sn st.devices).isNone
      then st.newDeviceCallbacks.map (fun cb => Event.newDevice cb (initDevice sn)) else [] := by
  unfold discoveryMsg lookupOrCreate setConfig setSensors
  rw [hsplit]
  by_cases hsn : s = sn
  · subst hsn
    cases hd : alGet s st.devices <;>
      simp only [hd] <;>
      split_ifs <;>
      (try split) <;>
      (try split) <;>
      (try simp [hd, List.filter_append, filter_newDeviceFor_map, isNewDeviceFor]) <;>
      (try split) <;>
      (try simp [isNewDeviceFor]) <;>
      (try simp_all)
  · cases hd : alGet s st.devices <;>
      simp only [hd] <;>
      split_ifs <;>
      (try split) <;>
      (try split) <;>
      (try simp [hsn, List.filter_append, filter_newDeviceFor_map, isNewDeviceFor]) <;>
      (try split) <;>
      (try simp [isNewDeviceFor]) <;>
      (try simp_all)

theorem discoveryMsg_keys (st : Discover) (m : Msg) (a b s ty : String)
    (hsplit : pySplit '/' m.topic = [a, b, s, ty]) :
    (discoveryMsg st m).st.devices.map Prod.fst =
      if (alGet s st.devices).isSome then st.devices.map Prod.fst
      else st.devices.map Prod.fst ++ [s] := by
  unfold discoveryMsg lookupOrCreate setConfig setSensors
  rw [hsplit]
  cases hd : alGet s st.devices <;>
    simp only [hd] <;>
    split_ifs <;>
    (try split) <;>
    (try split) <;>
    (try simp [alSet_map_fst, alGet_alSet, hd]) <;>
    (try split) <;>
    (try simp [alSet_map_fst, alGet_alSet, hd]) <;>
    (try simp_all)

theorem discoveryMsg_alGet_other (st : Discover) (m : Msg) (a b s ty : String)
    (hsplit : pySplit '/' m.topic = [a, b, s, ty]) (sn : String) (hne : ¬ s = sn) :
    alGet sn (discoveryMsg st m).st.devices = alGet sn st.devices := by
  unfold discoveryMsg lookupOrCreate setConfig setSensors
  rw [hsplit]
  cases hd : alGet s st.devices <;>
    simp only [hd] <;>
    split_ifs <;>
    (try split) <;>
    (try split) <;>
    (try simp [alGet_alSet, hne]) <;>
    (try split) <;>
    (try simp [alGet_alSet, hne]) <;>
    (try simp_all)

theorem discoveryMsg_alGet_self (st : Discover) (m : Msg) (a b s ty : String)
    (hsplit : pySplit '/' m.topic = [a, b, s, ty]) :
    ∃ d', alGet s (discoveryMsg st m).st.devices = some d' ∧
      d'.sn = (match alGet s st.devices with | some d => d.sn | none => s) := by
  unfold discoveryMsg lookupOrCreate setConfig setSensors
  rw [hsplit]
  cases hd : alGet s st.devices <;>
    simp only [hd] <;>
    split_ifs <;>
    (try split) <;>
    (try split) <;>
    (try simp [alGet_alSet, hd, initDevice]) <;>
    (try split) <;>
    (try simp [alGet_alSet, hd, initDevice]) <;>
    (try simp_all)

theorem telemetryMsg_fields (st : Discover) (m : Msg) :
    (telemetryMsg st m).1.devices = st.devices ∧
    (telemetryMsg st m).1.newDeviceCallbacks = st.newDeviceCallbacks ∧
    (telemetryMsg st m).1.otherOnMessage = st.otherOnMessage := by
  unfold telemetryMsg
  cases utf8Decode m.payload <;> simp

/-- C6: for every Device with a registered change-notification callback,
every assignment through the config setter (and likewise the sensors
setter) replaces the stored object and synchronously invokes the callback
with the Device as argument — also when the assigned value is identical to
the stored one, since the setters do no diffing. -/
theorem setter_always_notifies (d : DState) (v w : Json) (cb : Nat)
    (h : d.on_change = some cb) :
    setConfig d v = ({ d with config := v }, [Event.change cb { d with config := v }]) ∧
    setSensors d w = ({ d with sensors := w }, [Event.change cb { d with sensors := w }]) := by
  simp [setConfig, setSensors, h]

/-- Witness for C6 at a concrete device, assigning values identical to the
stored ones: the change callback is invoked both times. -/
theorem setter_always_notifies_witness :
    setConfig ⟨"D1", Json.obj [("a", Json.num 1)], Json.obj [], some 3⟩ (Json.obj [("a", Json.num 1)]) =
      (⟨"D1", Json.obj [("a", Json.num 1)], Json.obj [], some 3⟩,
       [Event.change 3 ⟨"D1", Json.obj [("a", Json.num 1)], Json.obj [], some 3⟩]) ∧
    setSensors ⟨"D1", Json.obj [("a", Json.num 1)], Json.obj [], some 3⟩ (Json.obj []) =
      (⟨"D1", Json.obj [("a", Json.num 1)], Json.obj [], some 3⟩,
       [Event.change 3 ⟨"D1", Json.obj [("a", Json.num 1)], Json.obj [], some 3⟩]) :=
  setter_always_notifies ⟨"D1", Json.obj [("a", Json.num 1)], Json.obj [], some 3⟩
    (Json.obj [("a", Json.num 1)]) (Json.obj []) 3 rfl

/-- C9: registering an already-registered new-device callback leaves the
engine unchanged — the on_new_device setter only appends callbacks that are
not yet in the list. -/
theorem on_new_device_dedup (st : Discover) (f : Nat)
    (h : f ∈ st.newDeviceCallbacks) :
    onNewDeviceAdd st f = st := by
  simp [onNewDeviceAdd, h]

/-- Witness for C9: re-registering callback 7 on an engine that already has
it is the identity. -/
theorem on_new_device_dedup_witness :
    onNewDeviceAdd ⟨[], [], [7, 9], some 5⟩ 7 = ⟨[], [], [7, 9], some 5⟩ :=
  on_new_device_dedup ⟨[], [], [7, 9], some 5⟩ 7 (by decide)

/-- C8: a config discovery message for an existing device whose payload is
not valid JSON is dropped: the engine state (hence the prior config of the
device) is unchanged, no change or new-device notification fires, and no
exception escapes. -/
theorem discovery_config_badjson (st : Discover) (m : Msg) (a b s ty : String) (d : DState)
    (hpre : pyStartsWith "tasmota/discovery/" m.topic = true)
    (hsplit : pySplit '/' m.topic = [a, b, s, ty])
    (hty : pyLower ty = "config")
    (hdev : alGet s st.devices = some d)
    (hbad : jsonLoadsBytes m.payload = none) :
    (onMessage st m).st = st ∧ (onMessage st m).err = none ∧
    (onMessage st m).events.filter isChange = [] ∧
    (onMessage st m).events.filter isNewDevice = [] := by
  have hd : discoveryMsg st m = ⟨st, [], none⟩ := by
    unfold discoveryMsg lookupOrCreate
    rw [hsplit]
    simp [hdev, hty, hbad]
  have hr : routeMsg st m = ⟨st, [], none⟩ := by
    rw [routeMsg_discovery st m hpre, hd]
  refine ⟨?_, ?_, ?_, ?_⟩
  · rw [onMessage_st, hr]
  · rw [onMessage_err, hr]
  · rw [onMessage_events, hr]
    cases st.otherOnMessage <;> simp [isChange]
  · rw [onMessage_events, hr]
    cases st.otherOnMessage <;> simp [isNewDevice]

/-- Witness for C8: the literal payload not-json on a config message for an
already-known device leaves the engine untouched and raises nothing. -/
theorem discovery_config_badjson_witness :
    (onMessage ⟨[("D1", initDevice "D1")], [], [], some 5⟩
        ⟨"tasmota/discovery/D1/config", strBytes "not-json"⟩).st =
      ⟨[("D1", initDevice "D1")], [], [], some 5⟩ ∧
    (onMessage ⟨[("D1", initDevice "D1")], [], [], some 5⟩
        ⟨"tasmota/discovery/D1/config", strBytes "not-json"⟩).err = none ∧
    (onMessage ⟨[("D1", initDevice "D1")], [], [], some 5⟩
        ⟨"tasmota/discovery/D1/config", strBytes "not-json"⟩).events.filter isChange = [] ∧
    (onMessage ⟨[("D1", initDevice "D1")], [], [], some 5⟩
        ⟨"tasmota/discovery/D1/config", strBytes "not-json"⟩).events.filter isNewDevice = [] :=
  discovery_config_badjson ⟨[("D1", initDevice "D1")], [], [], some 5⟩
    ⟨"tasmota/discovery/D1/config", strBytes "not-json"⟩
    "tasmota" "discovery" "D1" "config" (initDevice "D1") rfl rfl rfl rfl rfl

/-- C4: a config discovery message whose payload decodes as JSON replaces
the configuration of the target device wholesale with the decoded object —
no merging with prior keys — and no exception escapes. -/
theorem config_replaces_wholesale (st : Discover) (m : Msg) (a b s ty : String)
    (d : DState) (q : Json)
    (hpre : pyStartsWith "tasmota/discovery/" m.topic = true)
    (hsplit : pySplit '/' m.topic = [a, b, s, ty])
    (hty : pyLower ty = "config")
    (hdev : alGet s st.devices = some d)
    (hjson : jsonLoadsBytes m.payload = some q) :
    alGet s (onMessage st m).st.devices = some { d with config := q } ∧
    (onMessage st m).err = none := by
  have key : (discoveryMsg st m).st.devices = alSet s { d with config := q } st.devices ∧
      (discoveryMsg st m).err = none := by
    unfold discoveryMsg lookupOrCreate setConfig
    rw [hsplit]
    cases hoc : d.on_change <;> simp [hdev, hty, hjson, hoc]
  constructor
  · rw [onMessage_st, routeMsg_discovery st m hpre, key.1, alGet_alSet]
    simp
  · rw [onMessage_err, routeMsg_discovery st m hpre, key.2]

/-- Witness for C4: sending config payloads with keys a then b leaves the
device with exactly the second object — the a key is gone. -/
theorem config_replaces_wholesale_witness :
    alGet "D1" (onMessage
        (onMessage ⟨[], [], [], none⟩
          ⟨"tasmota/discovery/D1/config", strBytes "\x7b\"a\":1\x7d"⟩).st
        ⟨"tasmota/discovery/D1/config", strBytes "\x7b\"b\":2\x7d"⟩).st.devices =
      some ⟨"D1", Json.obj [("b", Json.num 2)], Json.obj [], none⟩ ∧
    (onMessage
        (onMessage ⟨[], [], [], none⟩
          ⟨"tasmota/discovery/D1/config", strBytes "\x7b\"a\":1\x7d"⟩).st
        ⟨"tasmota/discovery/D1/config", strBytes "\x7b\"b\":2\x7d"⟩).err = none :=
  config_replaces_wholesale
    (onMessage ⟨[], [], [], none⟩
      ⟨"tasmota/discovery/D1/config", strBytes "\x7b\"a\":1\x7d"⟩).st
    ⟨"tasmota/discovery/D1/config", strBytes "\x7b\"b\":2\x7d"⟩
    "tasmota" "discovery" "D1" "config"
    ⟨"D1", Json.obj [("a", Json.num 1)], Json.obj [], none⟩ (Json.obj [("b", Json.num 2)])
    rfl rfl rfl rfl rfl

/-- C5 counterexample: the payload [] decodes as JSON, yet a sensors
message carrying it does not set device.sensors — sensors.get is evaluated
outside the try block, so the AttributeError on a non-dict escapes the
handler and the device keeps its prior (empty) sensors. -/
theorem sensors_nonobj_counterexample :
    jsonLoadsBytes (strBytes "[]") = some (Json.arr []) ∧
    (onMessage ⟨[("D1", initDevice "D1")], [], [], none⟩
        ⟨"tasmota/discovery/D1/sensors", strBytes "[]"⟩).err = some PyError.attributeError ∧
    alGet "D1" (onMessage ⟨[("D1", initDevice "D1")], [], [], none⟩
        ⟨"tasmota/discovery/D1/sensors", strBytes "[]"⟩).st.devices = some (initDevice "D1") :=
  ⟨rfl, rfl, rfl⟩

/-- C5 amended: a sensors discovery message whose payload decodes as a JSON
object sets device.sensors to the sn entry of that object, defaulting to the
empty object when sn is absent, and no exception escapes. -/
theorem sensors_unwrap (st : Discover) (m : Msg) (a b s ty : String)
    (d : DState) (fields : List (String × Json))
    (hpre : pyStartsWith "tasmota/discovery/" m.topic = true)
    (hsplit : pySplit '/' m.topic = [a, b, s, ty])
    (hty : pyLower ty = "sensors")
    (hdev : alGet s st.devices = some d)
    (hjson : jsonLoadsBytes m.payload = some (Json.obj fields)) :
    alGet s (onMessage st m).st.devices =
      some { d with sensors := (alGet "sn" fields).getD (Json.obj []) } ∧
    (onMessage st m).err = none := by
  have key : (discoveryMsg st m).st.devices =
      alSet s { d with sensors := (alGet "sn" fields).getD (Json.obj []) } st.devices ∧
      (discoveryMsg st m).err = none := by
    unfold discoveryMsg lookupOrCreate setSensors
    rw [hsplit]
    cases hoc : d.on_change <;> simp [hdev, hty, hjson, hoc]
  constructor
  · rw [onMessage_st, routeMsg_discovery st m hpre, key.1, alGet_alSet]
    simp
  · rw [onMessage_err, routeMsg_discovery st m hpre, key.2]

/-- Witness for C5 amended: the Temperature example payload yields exactly
the unwrapped sn object, and the empty-object payload yields empty
sensors. -/
theorem sensors_unwrap_witness :
    (alGet "D1" (onMessage ⟨[("D1", initDevice "D1")], [], [], none⟩
        ⟨"tasmota/discovery/D1/sensors",
          strBytes "\x7b\"sn\":\x7b\"Temperature\":21\x7d\x7d"⟩).st.devices =
      some ⟨"D1", Json.obj [], Json.obj [("Temperature", Json.num 21)], none⟩ ∧
     (onMessage ⟨[("D1", initDevice "D1")], [], [], none⟩
        ⟨"tasmota/discovery/D1/sensors",
          strBytes "\x7b\"sn\":\x7b\"Temperature\":21\x7d\x7d"⟩).err = none) ∧
    (alGet "D1" (onMessage ⟨[("D1", initDevice "D1")], [], [], none⟩
        ⟨"tasmota/discovery/D1/sensors", strBytes "\x7b\x7d"⟩).st.devices =
      some ⟨"D1", Json.obj [], Json.obj [], none⟩ ∧
     (onMessage ⟨[("D1", initDevice "D1")], [], [], none⟩
        ⟨"tasmota/discovery/D1/sensors", strBytes "\x7b\x7d"⟩).err = none) :=
  ⟨sensors_unwrap ⟨[("D1", initDevice "D1")], [], [], none⟩
      ⟨"tasmota/discovery/D1/sensors", strBytes "\x7b\"sn\":\x7b\"Temperature\":21\x7d\x7d"⟩
      "tasmota" "discovery" "D1" "sensors" (initDevice "D1")
      [("sn", Json.obj [("Temperature", Json.num 21)])] rfl rfl rfl rfl rfl,
   sensors_unwrap ⟨[("D1", initDevice "D1")], [], [], none⟩
      ⟨"tasmota/discovery/D1/sensors", strBytes "\x7b\x7d"⟩
      "tasmota" "discovery" "D1" "sensors" (initDevice "D1") [] rfl rfl rfl rfl rfl⟩

/-- C2 counterexample: with onln unset in the config and the LWT topic
present in the telemetry store with payload Online, the online property is
some true — not unknown as the claim requires for an unset onln. -/
theorem online_unset_onln_counterexample :
    pyDictGet (Json.obj [("t", Json.str "x")]) "onln" = none ∧
    DState.online ⟨"D1", Json.obj [("t", Json.str "x")], Json.obj [], none⟩
        [("tele/x/LWT", "Online")] = some true :=
  ⟨rfl, rfl⟩

/-- C2 amended: online is tri-state with the comparison payload being
online_message — config.onln when truthy, the literal Online otherwise:
unknown (none) exactly when the LWT topic is absent from the telemetry
store; when the topic is present with payload mes, the result is the
equality of mes with online_message, which for an unset onln means
comparison against the literal Online rather than unknown. -/
theorem online_tristate (d : DState) (tel : List (String × String)) :
    (d.online tel = none ↔ alGet d.lwtTopic tel = none) ∧
    (∀ mes, alGet d.lwtTopic tel = some mes →
      d.online tel = some (pyEqStrJson mes d.online_message) ∧
      (pyDictGet d.config "onln" = none →
        (d.online tel = some true ↔ mes = "Online"))) := by
  constructor
  · unfold DState.online
    cases h : alGet d.lwtTopic tel <;> simp [h]
  · intro mes hmes
    constructor
    · unfold DState.online
      rw [hmes]
    · intro honln
      unfold DState.online DState.online_message
      rw [hmes, honln]
      simp [pyEqStrJson]

/-- Witness for C2 amended, at the example given by the spec: t living/light1 and
onln Ready with telemetry Ready yields online some true. -/
theorem online_tristate_witness :
    DState.online
        ⟨"D1", Json.obj [("t", Json.str "living/light1"), ("onln", Json.str "Ready")],
         Json.obj [], none⟩
        [("tele/living/light1/LWT", "Ready")] = some true :=
  ((online_tristate
      ⟨"D1", Json.obj [("t", Json.str "living/light1"), ("onln", Json.str "Ready")],
       Json.obj [], none⟩
      [("tele/living/light1/LWT", "Ready")]).2 "Ready" rfl).1.trans rfl

theorem routeMsg_no_forward (st : Discover) (m : Msg) :
    (routeMsg st m).events.filter isForward = [] := by
  unfold routeMsg
  split_ifs with h1 h2
  · exact discoveryMsg_no_forward st m
  · rfl
  · rfl

/-- C7 counterexample: on a transport with a captured original handler, a
telemetry message with a non-UTF-8 payload produces no forwarding call at
all — the decode error escapes before the chaining step — refuting that
the captured handler is invoked for every message regardless of topic. -/
theorem chaining_counterexample :
    (Discover.mk [] [] [] (some 5)).otherOnMessage = some 5 ∧
    (onMessage ⟨[], [], [], some 5⟩ ⟨"tele/x/LWT", [255]⟩).events = [] :=
  ⟨rfl, rfl⟩

/-- C7 amended: whenever a captured original handler exists and processing
of the message completes without an escaping exception, the handler is
invoked exactly once, after all of the own callback activity of the engine; and
a message matching neither routing prefix changes no engine state and is
still forwarded. -/
theorem chained_handler (st : Discover) (m : Msg) (cb : Nat)
    (hcb : st.otherOnMessage = some cb)
    (hok : (onMessage st m).err = none) :
    ((onMessage st m).events =
        (routeMsg st m).events ++ [Event.forward cb m.topic m.payload] ∧
      (routeMsg st m).events.filter isForward = []) ∧
    (pyStartsWith "tasmota/discovery/" m.topic = false →
      pyStartsWith "tele/" m.topic = false →
      (onMessage st m).st = st ∧
      (onMessage st m).events = [Event.forward cb m.topic m.payload]) := by
  rw [onMessage_err] at hok
  constructor
  · constructor
    · rw [onMessage_events, hok, hcb]
    · exact routeMsg_no_forward st m
  · intro hp1 hp2
    constructor
    · rw [onMessage_st, routeMsg_other st m hp1 hp2]
    · rw [onMessage_events, hok, hcb, routeMsg_other st m hp1 hp2]
      rfl

/-- Witness for C7 amended at a message with an unrelated topic: the
captured handler 5 receives exactly one call and the state is untouched. -/
theorem chained_handler_witness :
    ((onMessage ⟨[], [], [], some 5⟩ ⟨"foo/bar", strBytes "hi"⟩).events =
        (routeMsg ⟨[], [], [], some 5⟩ ⟨"foo/bar", strBytes "hi"⟩).events ++
          [Event.forward 5 "foo/bar" (strBytes "hi")] ∧
      (routeMsg ⟨[], [], [], some 5⟩ ⟨"foo/bar", strBytes "hi"⟩).events.filter isForward = []) ∧
    (pyStartsWith "tasmota/discovery/" "foo/bar" = false →
      pyStartsWith "tele/" "foo/bar" = false →
      (onMessage ⟨[], [], [], some 5⟩ ⟨"foo/bar", strBytes "hi"⟩).st = ⟨[], [], [], some 5⟩ ∧
      (onMessage ⟨[], [], [], some 5⟩ ⟨"foo/bar", strBytes "hi"⟩).events =
        [Event.forward 5 "foo/bar" (strBytes "hi")]) :=
  chained_handler ⟨[], [], [], some 5⟩ ⟨"foo/bar", strBytes "hi"⟩ 5 rfl rfl

theorem discoveryMsg_bad (st : Discover) (m : Msg) (h : serialOf m = none) :
    discoveryMsg st m = ⟨st, [], none⟩ := by
  unfold discoveryMsg
  split
  · next a b s ty heq =>
    exfalso
    unfold serialOf at h
    rw [heq] at h
    cases h
  · rfl

theorem discoveryMsg_newDevice_mem (st : Discover) (m : Msg) (cb : Nat) (d : DState)
    (h : Event.newDevice cb d ∈ (discoveryMsg st m).events) :
    alGet d.sn st.devices = none ∧ serialOf m = some d.sn ∧ d = initDevice d.sn := by
  revert h
  unfold discoveryMsg lookupOrCreate setConfig setSensors serialOf
  split
  · next a b s ty heq =>
    cases hd : alGet s st.devices <;>
      simp only [hd] <;>
      split_ifs <;>
      (try split) <;>
      (try split) <;>
      (try simp_all [initDevice, isNewDeviceFor]) <;>
      (try split) <;>
      (try simp_all [initDevice, isNewDeviceFor]) <;>
      (try (intro x hx hxcb hde; subst hde; exact ⟨hd, rfl, rfl⟩))
  · simp

/-- Helper to establish registry well-formedness from the entries
themselves. -/
theorem WFdevices_of_forall (st : Discover) (h : ∀ p ∈ st.devices, p.2.sn = p.1) :
    WFdevices st := by
  intro sn d hget
  exact h (sn, d) (alGet_mem hget)

/-- C10: processing any message preserves registry well-formedness
(devices[sn].sn = sn), keeps every registered serial number registered with
an unchanged sn field, and any device handed to a new-device callback is
already present in the registry under its own serial number — in the source
the insertion happens before the callback loop runs. -/
theorem registry_invariant (st : Discover) (m : Msg) (hwf : WFdevices st) :
    WFdevices (onMessage st m).st ∧
    (∀ sn d, alGet sn st.devices = some d →
      ∃ d', alGet sn (onMessage st m).st.devices = some d' ∧ d'.sn = d.sn) ∧
    (∀ cb d, Event.newDevice cb d ∈ (onMessage st m).events →
      ∃ d', alGet d.sn (onMessage st m).st.devices = some d' ∧ d'.sn = d.sn) := by
  rw [onMessage_st, onMessage_events]
  by_cases h1 : pyStartsWith "tasmota/discovery/" m.topic = true
  · rw [routeMsg_discovery st m h1]
    cases hser : serialOf m with
    | none =>
      rw [discoveryMsg_bad st m hser]
      refine ⟨hwf, ?_, ?_⟩
      · intro sn d h
        exact ⟨d, h, rfl⟩
      · intro cb d h
        exfalso
        revert h
        cases st.otherOnMessage <;> simp
    | some s =>
      obtain ⟨a, b, ty, hsplit⟩ := serialOf_some hser
      refine ⟨?_, ?_, ?_⟩
      · intro sn d h
        by_cases hsn : s = sn
        · subst hsn
          obtain ⟨d', hd', hsn'⟩ := discoveryMsg_alGet_self st m a b s ty hsplit
          rw [hd'] at h
          injection h with hh
          subst hh
          revert hsn'
          cases hprev : alGet s st.devices with
          | none => intro hsn'; exact hsn'
          | some d0 => intro hsn'; rw [hsn']; exact hwf s d0 hprev
        · rw [discoveryMsg_alGet_other st m a b s ty hsplit sn hsn] at h
          exact hwf sn d h
      · intro sn d h
        by_cases hsn : s = sn
        · subst hsn
          obtain ⟨d', hd', hsn'⟩ := discoveryMsg_alGet_self st m a b s ty hsplit
          refine ⟨d', hd', ?_⟩
          rw [h] at hsn'
          exact hsn'.trans rfl
        · rw [discoveryMsg_alGet_other st m a b s ty hsplit sn hsn]
          exact ⟨d, h, rfl⟩
      · intro cb d h
        rw [List.mem_append] at h
        rcases h with h | h
        · obtain ⟨hnone, hser', hinit⟩ := discoveryMsg_newDevice_mem st m cb d h
          have hds : d.sn = s := by
            rw [hser'] at hser
            injection hser
          obtain ⟨d', hd', hsn'⟩ := discoveryMsg_alGet_self st m a b s ty hsplit
          rw [hds] at hnone ⊢
          refine ⟨d', hd', ?_⟩
          rw [hnone] at hsn'
          exact hsn'.trans rfl
        · exfalso
          revert h
          cases (discoveryMsg st m).err <;> cases st.otherOnMessage <;> simp
  · have h1f : pyStartsWith "tasmota/discovery/" m.topic = false := by simpa using h1
    by_cases h2 : pyStartsWith "tele/" m.topic = true
    · rw [routeMsg_tele st m h1f h2]
      obtain ⟨hdev, _, _⟩ := telemetryMsg_fields st m
      refine ⟨?_, ?_, ?_⟩
      · intro sn d h
        rw [hdev] at h
        exact hwf sn d h
      · intro sn d h
        rw [hdev]
        exact ⟨d, h, rfl⟩
      · intro cb d h
        exfalso
        revert h
        cases (telemetryMsg st m).2 <;> cases st.otherOnMessage <;> simp
    · have h2f : pyStartsWith "tele/" m.topic = false := by simpa using h2
      rw [routeMsg_other st m h1f h2f]
      refine ⟨hwf, ?_, ?_⟩
      · intro sn d h
        exact ⟨d, h, rfl⟩
      · intro cb d h
        exfalso
        revert h
        cases st.otherOnMessage <;> simp

/-- Witness for C10 at a concrete engine with one known device, processing
a discovery message that creates a second one. -/
theorem registry_invariant_witness :
    WFdevices (onMessage ⟨[("D1", initDevice "D1")], [], [7], some 5⟩
        ⟨"tasmota/discovery/D2/state", []⟩).st ∧
    (∀ sn d, alGet sn (Discover.mk [("D1", initDevice "D1")] [] [7] (some 5)).devices = some d →
      ∃ d', alGet sn (onMessage ⟨[("D1", initDevice "D1")], [], [7], some 5⟩
          ⟨"tasmota/discovery/D2/state", []⟩).st.devices = some d' ∧ d'.sn = d.sn) ∧
    (∀ cb d, Event.newDevice cb d ∈ (onMessage ⟨[("D1", initDevice "D1")], [], [7], some 5⟩
        ⟨"tasmota/discovery/D2/state", []⟩).events →
      ∃ d', alGet d.sn (onMessage ⟨[("D1", initDevice "D1")], [], [7], some 5⟩
          ⟨"tasmota/discovery/D2/state", []⟩).st.devices = some d' ∧ d'.sn = d.sn) :=
  registry_invariant ⟨[("D1", initDevice "D1")], [], [7], some 5⟩
    ⟨"tasmota/discovery/D2/state", []⟩
    (WFdevices_of_forall _ (by decide))

theorem runMsgs_nil (st : Discover) : runMsgs st [] = (st, []) := rfl

theorem runMsgs_cons (st : Discover) (m : Msg) (rest : List Msg) :
    runMsgs st (m :: rest) =
      ((runMsgs (onMessage st m).st rest).1,
       (onMessage st m).events ++ (runMsgs (onMessage st m).st rest).2) :=
  rfl

theorem onMessage_valid_step (st : Discover) (m : Msg) (a b s ty : String)
    (hpre : pyStartsWith "tasmota/discovery/" m.topic = true)
    (hsplit : pySplit '/' m.topic = [a, b, s, ty]) (sn : String) :
    (onMessage st m).st.newDeviceCallbacks = st.newDeviceCallbacks ∧
    ((onMessage st m).events.filter (isNewDeviceFor sn) =
      if s = sn ∧ (alGet sn st.devices).isNone
      then st.newDeviceCallbacks.map (fun cb => Event.newDevice cb (initDevice sn)) else []) ∧
    ((onMessage st m).st.devices.map Prod.fst =
      if (alGet s st.devices).isSome then st.devices.map Prod.fst
      else st.devices.map Prod.fst ++ [s]) := by
  rw [onMessage_st, onMessage_events, routeMsg_discovery st m hpre]
  refine ⟨(discoveryMsg_st_fields st m).1, ?_, discoveryMsg_keys st m a b s ty hsplit⟩
  rw [List.filter_append, discoveryMsg_newDevice_filter st m a b s ty hsplit sn]
  have hfw : (match (discoveryMsg st m).err, st.otherOnMessage with
      | none, some cb => [Event.forward cb m.topic m.payload]
      | _, _ => []).filter (isNewDeviceFor sn) = [] := by
    cases (discoveryMsg st m).err <;> cases st.otherOnMessage <;> simp [isNewDeviceFor]
  rw [hfw, List.append_nil]

theorem onMessage_valid_isSome (st : Discover) (m : Msg) (a b s ty : String)
    (hpre : pyStartsWith "tasmota/discovery/" m.topic = true)
    (hsplit : pySplit '/' m.topic = [a, b, s, ty]) (sn : String) :
    ((alGet sn (onMessage st m).st.devices).isSome ↔
      ((alGet sn st.devices).isSome ∨ sn = s)) := by
  rw [alGet_isSome_iff_mem, alGet_isSome_iff_mem,
    (onMessage_valid_step st m a b s ty hpre hsplit sn).2.2]
  split_ifs with h
  · have hs : s ∈ st.devices.map Prod.fst := (alGet_isSome_iff_mem s _).mp h
    constructor
    · exact Or.inl
    · rintro (h' | h')
      · exact h'
      · rw [h']
        exact hs
  · simp [List.mem_append]

theorem runMsgs_spec (msgs : List Msg) : ∀ (st : Discover),
    (∀ m ∈ msgs, validDiscoveryMsg m = true) → ∀ sn : String,
    ((runMsgs st msgs).1.newDeviceCallbacks = st.newDeviceCallbacks) ∧
    ((alGet sn (runMsgs st msgs).1.devices).isSome ↔
       ((alGet sn st.devices).isSome ∨ sn ∈ msgs.filterMap serialOf)) ∧
    ((runMsgs st msgs).2.filter (isNewDeviceFor sn) =
       if sn ∈ msgs.filterMap serialOf ∧ (alGet sn st.devices).isNone
       then st.newDeviceCallbacks.map (fun cb => Event.newDevice cb (initDevice sn)) else []) ∧
    ((st.devices.map Prod.fst).Nodup → ((runMsgs st msgs).1.devices.map Prod.fst).Nodup) := by
  induction msgs with
  | nil =>
    intro st hv sn
    refine ⟨rfl, by simp [runMsgs_nil], by simp [runMsgs_nil], fun h => h⟩
  | cons m rest ih =>
    intro st hv sn
    have hvm := hv m (List.mem_cons_self m rest)
    have hvr : ∀ m' ∈ rest, validDiscoveryMsg m' = true :=
      fun m' hm' => hv m' (List.mem_cons_of_mem m hm')
    obtain ⟨hpre, s, hser⟩ := validDiscoveryMsg_parts hvm
    obtain ⟨a, b, ty, hsplit⟩ := serialOf_some hser
    obtain ⟨hcb1, hfil1, hkeys1⟩ := onMessage_valid_step st m a b s ty hpre hsplit sn
    have hiff1 := onMessage_valid_isSome st m a b s ty hpre hsplit sn
    obtain ⟨ihcb, ihiff, ihfil, ihnd⟩ := ih (onMessage st m).st hvr sn
    have hserials : (m :: rest).filterMap serialOf = s :: rest.filterMap serialOf := by
      simp [List.filterMap_cons, hser]
    rw [runMsgs_cons]
    refine ⟨?_, ?_, ?_, ?_⟩
    · rw [ihcb, hcb1]
    · rw [ihiff, hiff1, hserials]
      simp only [List.mem_cons]
      tauto
    · rw [List.filter_append, hfil1, ihfil, hcb1, hserials]
      by_cases hsn : s = sn
      · subst hsn
        by_cases hn : alGet s st.devices = none
        · have hc1 : s = s ∧ (alGet s st.devices).isNone := ⟨rfl, by simp [hn]⟩
          have hsome1 : (alGet s (onMessage st m).st.devices).isSome :=
            hiff1.mpr (Or.inr rfl)
          have hnot2 : ¬ (s ∈ rest.filterMap serialOf ∧
              (alGet s (onMessage st m).st.devices).isNone) := by
            rintro ⟨-, hx⟩
            rw [Option.isNone_iff_eq_none] at hx
            rw [hx] at hsome1
            simp at hsome1
          have hc3 : s ∈ s :: rest.filterMap serialOf ∧ (alGet s st.devices).isNone :=
            ⟨List.mem_cons_self _ _, by simp [hn]⟩
          rw [if_pos hc1, if_neg hnot2, if_pos hc3, List.append_nil]
        · have hc1f : ¬ (s = s ∧ (alGet s st.devices).isNone) := by
            rintro ⟨-, hx⟩
            rw [Option.isNone_iff_eq_none] at hx
            exact hn hx
          have hsome1 : (alGet s (onMessage st m).st.devices).isSome :=
            hiff1.mpr (Or.inr rfl)
          have hnot2 : ¬ (s ∈ rest.filterMap serialOf ∧
              (alGet s (onMessage st m).st.devices).isNone) := by
            rintro ⟨-, hx⟩
            rw [Option.isNone_iff_eq_none] at hx
            rw [hx] at hsome1
            simp at hsome1
          have hc3f : ¬ (s ∈ s :: rest.filterMap serialOf ∧ (alGet s st.devices).isNone) := by
            rintro ⟨-, hx⟩
            rw [Option.isNone_iff_eq_none] at hx
            exact hn hx
          rw [if_neg hc1f, if_neg hnot2, if_neg hc3f, List.append_nil]
      · have hsn' : ¬ sn = s := fun hh => hsn hh.symm
        have hc1f : ¬ (s = sn ∧ (alGet sn st.devices).isNone) := by
          rintro ⟨hx, -⟩
          exact hsn hx
        have hiffn : alGet sn (onMessage st m).st.devices = none ↔
            alGet sn st.devices = none := by
          constructor
          · intro hx
            by_contra hy
            have hy' : (alGet sn st.devices).isSome := Option.ne_none_iff_isSome.mp hy
            have hz : (alGet sn (onMessage st m).st.devices).isSome := hiff1.mpr (Or.inl hy')
            rw [hx] at hz
            simp at hz
          · intro hx
            by_contra hy
            have hy' : (alGet sn (onMessage st m).st.devices).isSome :=
              Option.ne_none_iff_isSome.mp hy
            rcases hiff1.mp hy' with hz | hz
            · rw [hx] at hz
              simp at hz
            · exact hsn' hz
        have hcond : (sn ∈ rest.filterMap serialOf ∧
              (alGet sn (onMessage st m).st.devices).isNone) ↔
            ((sn ∈ s :: rest.filterMap serialOf) ∧ (alGet sn st.devices).isNone) := by
          constructor
          · rintro ⟨hm', hx⟩
            rw [Option.isNone_iff_eq_none] at hx
            exact ⟨List.mem_cons_of_mem _ hm', by simp [hiffn.mp hx]⟩
          · rintro ⟨hm', hx⟩
            rcases List.mem_cons.mp hm' with hz | hz
            · exact absurd hz hsn'
            · rw [Option.isNone_iff_eq_none] at hx
              exact ⟨hz, by simp [hiffn.mpr hx]⟩
        rw [if_neg hc1f, if_congr hcond rfl rfl]
        simp
    · intro hnod
      apply ihnd
      rw [hkeys1]
      split_ifs with h
      · exact hnod
      · have hs : s ∉ st.devices.map Prod.fst := by
          intro hmem
          exact h ((alGet_isSome_iff_mem s _).mpr hmem)
        simp [List.nodup_append, hnod, hs]

/-- C3: over any sequence of structurally valid discovery messages starting
from a fresh engine, each serial number sn gets at most one registry entry
(keys stay duplicate-free), and the new-device callbacks for sn fire
exactly once — as one block, in registration order, at first creation, with
the fresh device as argument — when some message carries sn, and never
again for later messages about it. -/
theorem discovery_idempotent_creation (cbs : List Nat) (other : Option Nat)
    (tel : List (String × String)) (msgs : List Msg) (sn : String)
    (hv : ∀ m ∈ msgs, validDiscoveryMsg m = true) :
    ((runMsgs ⟨[], tel, cbs, other⟩ msgs).2.filter (isNewDeviceFor sn) =
       if sn ∈ msgs.filterMap serialOf
       then cbs.map (fun cb => Event.newDevice cb (initDevice sn)) else []) ∧
    ((runMsgs ⟨[], tel, cbs, other⟩ msgs).1.devices.map Prod.fst).Nodup := by
  obtain ⟨hcb, hiff, hfil, hnd⟩ := runMsgs_spec msgs ⟨[], tel, cbs, other⟩ hv sn
  constructor
  · rw [hfil]
    by_cases h : sn ∈ msgs.filterMap serialOf
    · rw [if_pos ⟨h, by simp [alGet]⟩, if_pos h]
    · rw [if_neg (fun hx => h hx.1), if_neg h]
  · exact hnd (by simp)

/-- Witness for C3: two discovery messages for the same serial number D1 —
a config one and one of unknown type — fire callbacks 7 and 9 exactly once
each, in order, and leave a single registry key. -/
theorem discovery_idempotent_creation_witness :
    ((runMsgs ⟨[], [], [7, 9], some 5⟩
        [⟨"tasmota/discovery/D1/config", strBytes "\x7b\x7d"⟩,
         ⟨"tasmota/discovery/D1/state", []⟩]).2.filter (isNewDeviceFor "D1") =
      [Event.newDevice 7 (initDevice "D1"), Event.newDevice 9 (initDevice "D1")]) ∧
    ((runMsgs ⟨[], [], [7, 9], some 5⟩
        [⟨"tasmota/discovery/D1/config", strBytes "\x7b\x7d"⟩,
         ⟨"tasmota/discovery/D1/state", []⟩]).1.devices.map Prod.fst).Nodup :=
  discovery_idempotent_creation [7, 9] (some 5) []
    [⟨"tasmota/discovery/D1/config", strBytes "\x7b\x7d"⟩,
     ⟨"tasmota/discovery/D1/state", []⟩] "D1" (by decide)

end Tasmota
